import Mathlib

/-!
Verification of the speaker-notes extraction core of `convert.js`
(repository `justinknight93/slideshow`).

The JavaScript source is shallowly embedded below.  JavaScript dynamic
values that can occur at the modelled program points are made explicit:

* a DOM attribute lookup (`Element.getAttribute`) yields `Option String`
  (`none` = attribute absent, i.e. JS `null`);
* JS `parseInt` yields `Option Int` (`none` = `NaN`);
* a possibly-`undefined` text payload is `Option String`, and JS string
  concatenation coerces `undefined` to the literal `"undefined"` (`jsStr`);
* `String.prototype.repeat` throws a `RangeError` on a negative count, so
  the paragraph formatter and everything above it return `Option _`
  (`none` = an uncaught exception aborting the run).

Structures mirror the slices of the DOM the code actually reads: a run
(`<a:r>`) is read through its first `<a:rPr>` descendant's attribute list
and the `textContent` of its first `<a:t>` descendant; a paragraph
(`<a:p>`) through its first `<a:pPr>` descendant's attributes and its
`<a:r>` descendants in document order; a package entry through its name
and the `<a:p>` descendants of the first `<p:txBody>` of its parsed
document (`none` when that container is absent).
-/

/-- Attribute list of an element, in source declaration order.
`getAttribute` (xmldom) returns the value of the first attribute with the
given name, or `null` when absent. -/
def getAttribute (attrs : List (String × String)) (name : String) : Option String :=
  (attrs.find? (fun p => p.1 == name)).map Prod.snd

/-- A digit valid for JS `parseInt` in the given radix (10 or 16 here). -/
def isRadixDigit (radix : Nat) (c : Char) : Bool :=
  if radix = 16 then c.isDigit || ('a' ≤ c && c ≤ 'f') || ('A' ≤ c && c ≤ 'F')
  else c.isDigit

/-- Numeric value of a digit character (0-9, a-f, A-F). -/
def digitVal (c : Char) : Nat :=
  if c.isDigit then c.toNat - '0'.toNat
  else if 'a' ≤ c && c ≤ 'f' then c.toNat - 'a'.toNat + 10
  else if 'A' ≤ c && c ≤ 'F' then c.toNat - 'A'.toNat + 10
  else 0

/-- Value of a digit string in the given radix. -/
def digitsToNat (radix : Nat) (ds : List Char) : Nat :=
  ds.foldl (fun acc c => acc * radix + digitVal c) 0

/-- JS `parseInt(x)` with no radix argument, on an attribute-lookup result:
`parseInt(null)` stringifies to `"null"` and gives `NaN`; otherwise leading
whitespace is skipped, an optional sign and optional `0x`/`0X` prefix are
consumed, and the longest digit run is converted; no digits means `NaN`
(modelled as `none`). -/
def jsParseInt (s? : Option String) : Option Int :=
  let str := match s? with
    | none => "null"
    | some s => s
  let cs := str.data.dropWhile Char.isWhitespace
  let sgn : Int := match cs with
    | '-' :: _ => -1
    | _ => 1
  let cs₁ := match cs with
    | '-' :: t => t
    | '+' :: t => t
    | _ => cs
  let radix : Nat := match cs₁ with
    | '0' :: 'x' :: _ => 16
    | '0' :: 'X' :: _ => 16
    | _ => 10
  let cs₂ := match cs₁ with
    | '0' :: 'x' :: t => t
    | '0' :: 'X' :: t => t
    | _ => cs₁
  let ds := cs₂.takeWhile (isRadixDigit radix)
  if ds.isEmpty then none else some (sgn * (digitsToNat radix ds : Int))

/-- JS truthiness of a `parseInt` result: `NaN` and `0` (also `-0`) are
falsy, every other number is truthy. -/
def jsTruthyNum (n? : Option Int) : Bool :=
  match n? with
  | none => false
  | some n => n != 0

/-- JS string coercion of a possibly-`undefined` string, as performed by
the `+` operator in `begin + textContent + end`. -/
def jsStr (s? : Option String) : String :=
  match s? with
  | none => "undefined"
  | some s => s

/-- JS `String.prototype.repeat`: throws `RangeError` on a negative count
(modelled as `none`). -/
def jsRepeat (s : String) (n : Int) : Option String :=
  if n < 0 then none else some (String.join (List.replicate n.toNat s))

/-- JS `String.prototype.trim`: strip whitespace from both ends. -/
def jsTrim (s : String) : String :=
  String.mk (((s.data.dropWhile Char.isWhitespace).reverse.dropWhile Char.isWhitespace).reverse)

/-- A text run (`<a:r>`): the attribute list of its first `<a:rPr>`
descendant (`none` when there is no such element) and the `textContent` of
its first `<a:t>` descendant (`none` when there is no such element, i.e.
JS `undefined` under the `?.` access). -/
structure Run where
  rPr : Option (List (String × String))
  text : Option String
deriving DecidableEq, Repr

/-- A paragraph (`<a:p>`): the attribute list of its first `<a:pPr>`
descendant and its `<a:r>` descendants in document order. -/
structure Paragraph where
  pPr : Option (List (String × String))
  runs : List Run
deriving DecidableEq, Repr

/-- One record pushed by `extractNotes`. -/
structure SlideNote where
  slide : Int
  notes : String
deriving DecidableEq, Repr

/-- A package entry: its name in `Object.keys(zip.files)` and the `<a:p>`
descendants of the first `<p:txBody>` element of its parsed document
(`none` when the document has no `p:txBody`). -/
structure Entry where
  name : String
  body : Option (List Paragraph)
deriving DecidableEq, Repr

/-- `` begin += `<${tag}>` ``. -/
def openTag (tag : String) : String := "<" ++ tag ++ ">"

/-- `` end = `</${tag}>` + end ``. -/
def closeTag (tag : String) : String := "</" ++ tag ++ ">"

/-- The `addTag` closure of `formatSpan`, acting on the `(begin, end)`
accumulator pair. -/
def addTag (tag : String) (acc : String × String) : String × String :=
  (acc.1 ++ openTag tag, closeTag tag ++ acc.2)

/-- `parseInt(formatting.getAttribute("b"))` used as a condition. -/
def boldSet (fmt : List (String × String)) : Bool :=
  jsTruthyNum (jsParseInt (getAttribute fmt "b"))

/-- `parseInt(formatting.getAttribute("i"))` used as a condition. -/
def italSet (fmt : List (String × String)) : Bool :=
  jsTruthyNum (jsParseInt (getAttribute fmt "i"))

/-- `formatting.getAttribute("u") && formatting.getAttribute("u") !== "none"`:
the first conjunct is JS string truthiness, so `null` (absent) and the
empty string are both falsy. -/
def undSet (fmt : List (String × String)) : Bool :=
  match getAttribute fmt "u" with
  | none => false
  | some s => s != "" && s != "none"

/-- `formatting.getAttribute("strike") && formatting.getAttribute("strike")
!== "noStrike"`, with the same JS truthiness on the first conjunct. -/
def strikeSet (fmt : List (String × String)) : Bool :=
  match getAttribute fmt "strike" with
  | none => false
  | some s => s != "" && s != "noStrike"

/-- The `(begin, end)` pair built by `formatSpan`'s four `addTag` calls,
performed in the fixed source order b, i, u, strike (empty when the run
has no `<a:rPr>` element). -/
def spanTags (rPr? : Option (List (String × String))) : String × String :=
  match rPr? with
  | none => ("", "")
  | some fmt =>
    let a0 : String × String := ("", "")
    let a1 := if boldSet fmt then addTag "b" a0 else a0
    let a2 := if italSet fmt then addTag "i" a1 else a1
    let a3 := if undSet fmt then addTag "u" a2 else a2
    if strikeSet fmt then addTag "s" a3 else a3

/-- `formatSpan`: `return begin + textContent + end`. -/
def formatSpan (span : Run) : String :=
  (spanTags span.rPr).1 ++ jsStr span.text ++ (spanTags span.rPr).2

/-- `formatLine`: builds the indent/bullet part (which can throw a
`RangeError` when the parsed `lvl` is negative, hence `Option`), then
appends `" " + formatSpan(span)` for every run, and wraps in `<p>` tags. -/
def formatLine (line : Paragraph) : Option String :=
  let pre? : Option String :=
    match line.pPr with
    | none => some ""
    | some attrs =>
      match jsParseInt (getAttribute attrs "lvl") with
      | none => some ""
      | some n =>
        if n = 0 then some ""
        else (jsRepeat "&#9;" n).map (fun s => s ++ "&#x2022;")
  pre?.map (fun pre =>
    "<p>" ++ line.runs.foldl (fun acc r => acc ++ " " ++ formatSpan r) pre ++ "</p>")

/-- The characters of the literal `notesSlide` regex token. -/
def tokenChars : List Char := "notesSlide".data

/-- Case-insensitive literal match: strip `pat` from the front of `t`
comparing characters case-insensitively, returning the rest. -/
def ciStrip : List Char → List Char → Option (List Char)
  | [], t => some t
  | _ :: _, [] => none
  | p :: ps, c :: cs => if p.toLower == c.toLower then ciStrip ps cs else none

/-- Case-sensitive literal match: strip `pat` from the front of `t`,
returning the rest. -/
def csStrip : List Char → List Char → Option (List Char)
  | [], t => some t
  | _ :: _, [] => none
  | p :: ps, c :: cs => if p == c then csStrip ps cs else none

/-- `/notesSlide[0-9]+/i.test(filename)`: somewhere in the name, the token
`notesSlide` (case-insensitively) immediately followed by a digit. -/
def qualifies (name : String) : Bool :=
  name.data.tails.any (fun t =>
    match ciStrip tokenChars t with
    | some (c :: _) => c.isDigit
    | _ => false)

/-- Helper for the anchored regex `/notesSlide(\d+)\.xml$/`: after the
(case-sensitive) token, the rest of the string must be a nonempty digit
run followed by the final four characters `.xml`; returns the digit run. -/
def numXmlTail (rest : List Char) : Option (List Char) :=
  let n := rest.length
  if 5 ≤ n ∧ rest.drop (n - 4) = ['.', 'x', 'm', 'l'] ∧ (rest.take (n - 4)).all Char.isDigit
  then some (rest.take (n - 4)) else none

/-- `filename.match(/notesSlide(\d+)\.xml$/)` followed by
`parseInt(match[1], 10)`: leftmost position where the case-sensitive token
is followed by digits and then `.xml` ending the string; `none` when the
regex does not match. -/
def extractIdx (name : String) : Option Nat :=
  (name.data.tails.findSome? (fun t => (csStrip tokenChars t).bind numXmlTail)).map
    (digitsToNat 10)

/-- `const slideNumber = match ? parseInt(match[1], 10) : -1`. -/
def slideIdxOf (name : String) : Int :=
  match extractIdx name with
  | some n => (n : Int)
  | none => -1

/-- The `slideText` accumulation loop: `slideText += formatLine(lines[i])`
over all paragraphs, `none` when any `formatLine` call throws. -/
def slideTextOf (paras : List Paragraph) : Option String :=
  paras.foldlM (fun acc p => (formatLine p).map (fun s => acc ++ s)) ""

/-- The entry loop of `extractNotes`, in enumeration order: skip
non-qualifying names, skip qualifying entries without a `p:txBody`
(`continue`), otherwise push `{slide, notes: slideText.trim()}`; an
exception in any entry aborts the whole run (`none`). -/
def collectNotes : List Entry → Option (List SlideNote)
  | [] => some []
  | e :: es =>
    if qualifies e.name then
      match e.body with
      | none => collectNotes es
      | some paras =>
        match slideTextOf paras with
        | none => none
        | some slideText =>
          (collectNotes es).map
            (fun rest => { slide := slideIdxOf e.name, notes := jsTrim slideText } :: rest)
    else collectNotes es

/-- The comparator `(a, b) => a.slide - b.slide`: ascending slide order. -/
def noteLE (a b : SlideNote) : Prop := a.slide ≤ b.slide

instance : DecidableRel noteLE := fun a b => inferInstanceAs (Decidable (a.slide ≤ b.slide))

instance : IsTotal SlideNote noteLE := ⟨fun a b => Int.le_total a.slide b.slide⟩

instance : IsTrans SlideNote noteLE := ⟨fun _ _ _ h h' => Int.le_trans h h'⟩

/-- Strict version of the comparator order, used to state uniqueness of
the sorted output when slide indices are distinct. -/
def noteLT (a b : SlideNote) : Prop := a.slide < b.slide

instance : IsAntisymm SlideNote noteLT :=
  ⟨fun _ _ h h' => absurd (Int.lt_trans h h') (lt_irrefl _)⟩

/-- `notes.sort((a, b) => a.slide - b.slide)`: `Array.prototype.sort` with
this comparator is (since ES2019) a stable ascending sort by `slide`; any
stable sorting algorithm produces the same output, so we use stable
insertion sort. -/
def sortNotes (l : List SlideNote) : List SlideNote :=
  List.insertionSort noteLE l

/-- `extractNotes`: collect in enumeration order, then sort. -/
def extractNotes (entries : List Entry) : Option (List SlideNote) :=
  (collectNotes entries).map sortNotes

/-! ## Helper lemmas -/

theorem getAttribute_cons (x : String × String) (l : List (String × String)) (n : String) :
    getAttribute (x :: l) n = if x.1 == n then some x.2 else getAttribute l n := by
  cases hx : (x.1 == n) with
  | true => simp [getAttribute, List.find?_cons_of_pos _ hx, hx]
  | false =>
    simp only [hx, if_false, Bool.false_eq_true]
    simp only [getAttribute]
    rw [List.find?_cons_of_neg]
    simp [hx]

/-- `getAttribute` sees only the first binding of each name, so on an
attribute list with pairwise distinct names it is invariant under
permutation of the list. -/
theorem getAttribute_perm {l₁ l₂ : List (String × String)} (h : l₁.Perm l₂)
    (hn : (l₁.map Prod.fst).Nodup) (n : String) : getAttribute l₁ n = getAttribute l₂ n := by
  induction h with
  | nil => rfl
  | cons x h ih =>
    rw [getAttribute_cons, getAttribute_cons]
    cases hx : (x.1 == n) with
    | true => rfl
    | false =>
      simp only [hx, if_false, Bool.false_eq_true]
      exact ih (by simpa using hn.of_cons)
  | swap x y l =>
    rw [getAttribute_cons, getAttribute_cons, getAttribute_cons, getAttribute_cons]
    have hxy : y.1 ≠ x.1 := by
      have hn' : (y.1 :: x.1 :: l.map Prod.fst).Nodup := by simpa using hn
      intro he
      exact (List.nodup_cons.mp hn').1 (by rw [he]; exact List.mem_cons_self _ _)
    cases hx : (x.1 == n) with
    | true =>
      cases hy : (y.1 == n) with
      | true => exact absurd ((eq_of_beq hy).trans (eq_of_beq hx).symm) hxy
      | false => simp [hx, hy]
    | false =>
      cases hy : (y.1 == n) with
      | true => simp [hx, hy]
      | false => simp [hx, hy]
  | trans h₁ h₂ ih₁ ih₂ =>
    exact (ih₁ hn).trans (ih₂ (((h₁.map Prod.fst).nodup_iff).mp hn))

/-- The `(begin, end)` accumulator of `formatSpan` for a run that has a
formatting element, in closed form: opening tags in the order b, i, u, s
and closing tags in the reverse order. -/
theorem spanTags_closed (fmt : List (String × String)) :
    spanTags (some fmt) =
      ((if boldSet fmt then "<b>" else "") ++ (if italSet fmt then "<i>" else "")
         ++ (if undSet fmt then "<u>" else "") ++ (if strikeSet fmt then "<s>" else ""),
       (if strikeSet fmt then "</s>" else "") ++ (if undSet fmt then "</u>" else "")
         ++ (if italSet fmt then "</i>" else "") ++ (if boldSet fmt then "</b>" else "")) := by
  cases hb : boldSet fmt <;> cases hi : italSet fmt <;> cases hu : undSet fmt <;>
    cases hs : strikeSet fmt <;>
    simp_all [spanTags, addTag, openTag, closeTag]

/-- `formatSpan` depends on the attribute list only through the four
attribute lookups. -/
theorem formatSpan_congr {l₁ l₂ : List (String × String)}
    (h : ∀ n, getAttribute l₁ n = getAttribute l₂ n) (t : Option String) :
    formatSpan ⟨some l₁, t⟩ = formatSpan ⟨some l₂, t⟩ := by
  have hb : boldSet l₁ = boldSet l₂ := by unfold boldSet; rw [h]
  have hi : italSet l₁ = italSet l₂ := by unfold italSet; rw [h]
  have hu : undSet l₁ = undSet l₂ := by unfold undSet; rw [h]
  have hs : strikeSet l₁ = strikeSet l₂ := by unfold strikeSet; rw [h]
  simp only [formatSpan, spanTags, hb, hi, hu, hs]

/-! ## Claim C1 -/

/-- C1: for every run and every subset of the four formatting flags that
are set, `formatSpan` returns prefix + text + suffix with the tag pairs
nested in the fixed canonical order outer-to-inner bold, italic,
underline, strikethrough, independently of the order in which the
underlying attributes appear in the source; in particular a run with bold
and italic both `"1"` and text `"Hello"` formats to
`<b><i>Hello</i></b>`. -/
theorem run_tag_nesting_canonical :
    (∀ (fmt : List (String × String)) (t : Option String),
        formatSpan ⟨some fmt, t⟩ =
          (if boldSet fmt then "<b>" else "") ++ (if italSet fmt then "<i>" else "")
            ++ (if undSet fmt then "<u>" else "") ++ (if strikeSet fmt then "<s>" else "")
            ++ jsStr t
            ++ (if strikeSet fmt then "</s>" else "") ++ (if undSet fmt then "</u>" else "")
            ++ (if italSet fmt then "</i>" else "") ++ (if boldSet fmt then "</b>" else ""))
    ∧ (∀ (l₁ l₂ : List (String × String)) (t : Option String),
        l₁.Perm l₂ → (l₁.map Prod.fst).Nodup →
        formatSpan ⟨some l₁, t⟩ = formatSpan ⟨some l₂, t⟩)
    ∧ formatSpan ⟨some [("b", "1"), ("i", "1")], some "Hello"⟩ = "<b><i>Hello</i></b>" := by
  refine ⟨fun fmt t => ?_, fun l₁ l₂ t hp hn => formatSpan_congr (getAttribute_perm hp hn) t,
    by decide⟩
  simp only [formatSpan, spanTags_closed]
  simp [String.append_assoc]

/-- Witness for C1: the theorem applied to the two declaration orders of
the bold/italic attributes of Scenario A. -/
theorem run_tag_nesting_canonical_witness :
    formatSpan ⟨some [("i", "1"), ("b", "1")], some "Hello"⟩ =
      formatSpan ⟨some [("b", "1"), ("i", "1")], some "Hello"⟩ :=
  run_tag_nesting_canonical.2.1 [("i", "1"), ("b", "1")] [("b", "1"), ("i", "1")]
    (some "Hello") (List.Perm.swap ("b", "1") ("i", "1") []) (by decide)

/-! ## Claim C2 -/

/-- C2: the output of the sort step is non-decreasing in `slide` under
plain ascending numeric order for every input multiset of records, and
two entries named `notesSlide2.xml` and `notesSlide10.xml` come out with
slide 2 before slide 10 (numeric, not lexicographic, order); records with
slide `-1` therefore sort before all numbered slides. -/
theorem notes_sorted_ascending :
    (∀ (l : List SlideNote),
        List.Pairwise (fun a b : SlideNote => a.slide ≤ b.slide) (sortNotes l))
    ∧ extractNotes [⟨"notesSlide10.xml", some [⟨none, [⟨none, some "ten"⟩]⟩]⟩,
        ⟨"notesSlide2.xml", some [⟨none, [⟨none, some "two"⟩]⟩]⟩] =
      some [⟨2, "<p> two</p>"⟩, ⟨10, "<p> ten</p>"⟩] := by
  exact ⟨fun l => List.sorted_insertionSort noteLE l, by decide⟩

/-! ## Claim C3 -/

/-- Following the claim's words (C3): the run part of the paragraph body —
for every run in source order, one leading space character concatenated
with that run's formatted output. -/
def specRunsBody : List Run → String
  | [] => ""
  | r :: rs => (" " ++ formatSpan r) ++ specRunsBody rs

/-- Following the claim's words (C3): the indentation part of the body —
empty when the indent level is 0, absent, or non-numeric; for a positive
level, exactly that many tab markers followed by exactly one bullet
marker. -/
def specIndentMark (p : Paragraph) : String :=
  match p.pPr with
  | none => ""
  | some attrs =>
    match jsParseInt (getAttribute attrs "lvl") with
    | none => ""
    | some n =>
      if 0 < n then String.join (List.replicate n.toNat "&#9;") ++ "&#x2022;" else ""

theorem foldl_runs_body (rs : List Run) (pre : String) :
    rs.foldl (fun acc r => acc ++ " " ++ formatSpan r) pre = pre ++ specRunsBody rs := by
  induction rs generalizing pre with
  | nil => simp [specRunsBody]
  | cons r rs ih =>
    rw [List.foldl_cons, ih]
    simp [specRunsBody, String.append_assoc]

/-- C3 counterexample: a paragraph whose indent attribute parses to a
negative integer makes `formatLine` throw a `RangeError`
(`"&#9;".repeat(-2)`), so for that paragraph no `"<p>" + body + "</p>"`
string is returned at all. -/
theorem line_shape_cex :
    formatLine ⟨some [("lvl", "-2")], [⟨none, some "World"⟩]⟩ = none := by decide

/-- C3 (amended): for every paragraph whose indent attribute does not
parse to a negative integer (for a negative value the formatter raises
instead of returning), `formatLine` returns `"<p>" + body + "</p>"` with
`body` the indentation part followed by one leading space plus formatted
output per run; indent level 2 with one unformatted run `"World"` yields
`<p>` + two tab markers + one bullet marker + `" World"` + `</p>`. -/
theorem line_shape_amended :
    (∀ (p : Paragraph),
        (∀ attrs n, p.pPr = some attrs →
            jsParseInt (getAttribute attrs "lvl") = some n → 0 ≤ n) →
        formatLine p = some ("<p>" ++ specIndentMark p ++ specRunsBody p.runs ++ "</p>"))
    ∧ formatLine ⟨some [("lvl", "2")], [⟨none, some "World"⟩]⟩ =
        some ("<p>" ++ ("&#9;" ++ "&#9;") ++ "&#x2022;" ++ " World" ++ "</p>") := by
  refine ⟨fun p hp => ?_, by decide⟩
  obtain ⟨pPr, runs⟩ := p
  cases pPr with
  | none =>
    simp only [formatLine, Option.map_some']
    rw [foldl_runs_body]
    simp [specIndentMark, String.append_assoc]
  | some attrs =>
    cases hparse : jsParseInt (getAttribute attrs "lvl") with
    | none =>
      simp only [formatLine, hparse, Option.map_some']
      rw [foldl_runs_body]
      simp [specIndentMark, hparse, String.append_assoc]
    | some n =>
      have hn : 0 ≤ n := hp attrs n rfl hparse
      by_cases hz : n = 0
      · subst hz
        simp only [formatLine, hparse, eq_self_iff_true, if_true, Option.map_some']
        rw [foldl_runs_body]
        simp [specIndentMark, hparse, String.append_assoc]
      · have hpos : 0 < n := lt_of_le_of_ne hn (Ne.symm hz)
        have hrep : jsRepeat "&#9;" n = some (String.join (List.replicate n.toNat "&#9;")) := by
          unfold jsRepeat
          rw [if_neg (not_lt.mpr hn)]
        simp only [formatLine, hparse, if_neg hz, hrep, Option.map_some']
        rw [foldl_runs_body]
        simp [specIndentMark, hparse, hpos, String.append_assoc]

/-- Witness for C3: the theorem applied to the Scenario B paragraph. -/
theorem line_shape_amended_witness :
    formatLine ⟨some [("lvl", "2")], [⟨none, some "World"⟩]⟩ =
      some ("<p>" ++ specIndentMark ⟨some [("lvl", "2")], [⟨none, some "World"⟩]⟩
        ++ specRunsBody [⟨none, some "World"⟩] ++ "</p>") :=
  line_shape_amended.1 ⟨some [("lvl", "2")], [⟨none, some "World"⟩]⟩
    (by
      intro attrs n h h'
      injection h with h
      subst h
      have h2 : jsParseInt (getAttribute [("lvl", "2")] "lvl") = some 2 := by decide
      rw [h2] at h'
      injection h' with h'
      omega)

/-! ## Claim C4 -/

/-- C4 counterexample: the underline attribute present with the empty
string as value is "present and not equal to the sentinel", yet JS string
truthiness makes `getAttribute("u") &&` fail, so no underline tags are
emitted and the claimed "set exactly when present and not `none`" is
false at this input. -/
theorem flag_semantics_cex :
    getAttribute [("u", "")] "u" = some "" ∧ ("" : String) ≠ "none" ∧
      formatSpan ⟨some [("u", "")], some "Hello"⟩ = "Hello" := by
  refine ⟨by decide, by decide, by decide⟩

/-- C4 (amended): bold and italic are set exactly when the attribute
parses to a nonzero integer; underline is set exactly when the attribute
is present with a nonempty value different from `"none"`; strikethrough
likewise with `"noStrike"` (an absent attribute is never set); a run with
no formatting container yields the text unchanged with empty prefix and
suffix. -/
theorem flag_semantics_amended :
    (∀ (fmt : List (String × String)),
        boldSet fmt = true ↔ ∃ n, jsParseInt (getAttribute fmt "b") = some n ∧ n ≠ 0)
    ∧ (∀ (fmt : List (String × String)),
        italSet fmt = true ↔ ∃ n, jsParseInt (getAttribute fmt "i") = some n ∧ n ≠ 0)
    ∧ (∀ (fmt : List (String × String)),
        undSet fmt = true ↔ ∃ s, getAttribute fmt "u" = some s ∧ s ≠ "" ∧ s ≠ "none")
    ∧ (∀ (fmt : List (String × String)),
        strikeSet fmt = true ↔
          ∃ s, getAttribute fmt "strike" = some s ∧ s ≠ "" ∧ s ≠ "noStrike")
    ∧ (∀ (t : Option String), formatSpan ⟨none, t⟩ = jsStr t) := by
  refine ⟨fun fmt => ?_, fun fmt => ?_, fun fmt => ?_, fun fmt => ?_, fun t => ?_⟩
  · unfold boldSet jsTruthyNum
    cases jsParseInt (getAttribute fmt "b") with
    | none => simp
    | some n => simp
  · unfold italSet jsTruthyNum
    cases jsParseInt (getAttribute fmt "i") with
    | none => simp
    | some n => simp
  · unfold undSet
    cases h : getAttribute fmt "u" with
    | none => simp
    | some s => simp
  · unfold strikeSet
    cases h : getAttribute fmt "strike" with
    | none => simp
    | some s => simp
  · simp [formatSpan, spanTags]

/-- Witness for C4: the no-container clause of the theorem at a concrete
run. -/
theorem flag_semantics_amended_witness :
    formatSpan ⟨none, some "plain"⟩ = jsStr (some "plain") :=
  flag_semantics_amended.2.2.2.2 (some "plain")

/-! ## Claim C5 -/

/-- C5: a qualifying entry whose document has a notes body with no
paragraphs still emits a record with the empty (trimmed) string — never
omitted — while a qualifying entry with no notes-body container at all is
skipped without any record and without an error. -/
theorem empty_body_vs_missing_body :
    ∀ (name : String) (es : List Entry), qualifies name = true →
      collectNotes ({ name := name, body := none } :: es) = collectNotes es
      ∧ collectNotes ({ name := name, body := some [] } :: es) =
          (collectNotes es).map
            (fun rest => { slide := slideIdxOf name, notes := "" } :: rest) := by
  intro name es hq
  have ht : jsTrim "" = "" := rfl
  have h0 : slideTextOf [] = some "" := rfl
  exact ⟨by simp [collectNotes, hq], by simp [collectNotes, hq, h0, ht]⟩

/-- Witness for C5: the theorem at a concrete qualifying name with an
empty package remainder. -/
theorem empty_body_vs_missing_body_witness :
    collectNotes [{ name := "notesSlide3.xml", body := none }] = collectNotes []
    ∧ collectNotes [{ name := "notesSlide3.xml", body := some [] }] =
        (collectNotes []).map
          (fun rest => { slide := slideIdxOf "notesSlide3.xml", notes := "" } :: rest) :=
  empty_body_vs_missing_body "notesSlide3.xml" [] (by decide)

/-! ## Claim C6 -/

/-- C6 counterexample: `notesSlideX.xml` has no digit after the token, so
it fails the loose test `/notesSlide[0-9]+/i` and is skipped entirely: the
output holds no record at all, in particular not the claimed record with
slide `-1`. -/
theorem notesSlideX_cex :
    extractNotes [{ name := "notesSlideX.xml", body := some [⟨none, [⟨none, some "hi"⟩]⟩] }] =
      some []
    ∧ some ([] : List SlideNote) ≠
        some [({ slide := -1, notes := "<p> hi</p>" } : SlideNote)] := by
  refine ⟨by decide, by decide⟩

/-- C6 (amended): an entry named `notesSlideX.xml` (non-numeric suffix)
does not pass the qualification test at all, so it yields no SlideNotes
record, whatever its document contains. -/
theorem notesSlideX_amended :
    qualifies "notesSlideX.xml" = false
    ∧ ∀ (body : Option (List Paragraph)),
        extractNotes [{ name := "notesSlideX.xml", body := body }] = some [] := by
  have hq : qualifies "notesSlideX.xml" = false := by decide
  refine ⟨hq, fun body => ?_⟩
  simp [extractNotes, collectNotes, hq, sortNotes, List.insertionSort]

/-! ## Claim C7 -/

/-- C7 counterexample: two enumeration orders of the same two entries
(both records get slide index `-1`) give different outputs, because the
sort is stable and so keeps equal-index records in collection order; the
order in which entries are enumerated is therefore observable in the
output. -/
theorem enum_order_cex :
    ([⟨"NotesSlide1.xml", some []⟩,
        ⟨"NotesSlide2.xml", some [⟨none, [⟨none, some "A"⟩]⟩]⟩] : List Entry).Perm
      [⟨"NotesSlide2.xml", some [⟨none, [⟨none, some "A"⟩]⟩]⟩, ⟨"NotesSlide1.xml", some []⟩]
    ∧ extractNotes [⟨"NotesSlide1.xml", some []⟩,
          ⟨"NotesSlide2.xml", some [⟨none, [⟨none, some "A"⟩]⟩]⟩] ≠
        extractNotes [⟨"NotesSlide2.xml", some [⟨none, [⟨none, some "A"⟩]⟩]⟩,
          ⟨"NotesSlide1.xml", some []⟩] := by
  exact ⟨List.Perm.swap _ _ _, by decide⟩

theorem pairwise_lt_of_nodup_slides {l : List SlideNote}
    (hs : List.Pairwise noteLE l) (hn : (l.map SlideNote.slide).Nodup) :
    List.Pairwise noteLT l := by
  have hn' : List.Pairwise (fun a b : SlideNote => a.slide ≠ b.slide) l :=
    List.pairwise_map.mp hn
  exact (hs.and hn').imp (fun h => lt_of_le_of_ne h.1 h.2)

/-- C7 (amended): extraction is a function of the entry list, so runs on
identical input give identical output; and the serialized order is
independent of the enumeration order of the collected records whenever
their slide indices are pairwise distinct (with duplicate indices, e.g.
several `-1` records, the stable sort preserves collection order, so
enumeration order is observable — see the counterexample). -/
theorem sorted_out_independent_of_order :
    ∀ (l₁ l₂ : List SlideNote), l₁.Perm l₂ → (l₁.map SlideNote.slide).Nodup →
      sortNotes l₁ = sortNotes l₂ := by
  intro l₁ l₂ hp hn
  have p₁ : (sortNotes l₁).Perm l₁ := List.perm_insertionSort noteLE l₁
  have p₂ : (sortNotes l₂).Perm l₂ := List.perm_insertionSort noteLE l₂
  have hn₂ : (l₂.map SlideNote.slide).Nodup := ((hp.map SlideNote.slide).nodup_iff).mp hn
  have hn₁' : ((sortNotes l₁).map SlideNote.slide).Nodup :=
    ((p₁.map SlideNote.slide).nodup_iff).mpr hn
  have hn₂' : ((sortNotes l₂).map SlideNote.slide).Nodup :=
    ((p₂.map SlideNote.slide).nodup_iff).mpr hn₂
  exact List.eq_of_perm_of_sorted (p₁.trans (hp.trans p₂.symm))
    (pairwise_lt_of_nodup_slides (List.sorted_insertionSort noteLE l₁) hn₁')
    (pairwise_lt_of_nodup_slides (List.sorted_insertionSort noteLE l₂) hn₂')

/-- Witness for C7 (amended): the theorem at two concrete collection
orders of records with distinct slide indices. -/
theorem sorted_out_independent_of_order_witness :
    sortNotes [⟨1, "a"⟩, ⟨2, "b"⟩] = sortNotes [⟨2, "b"⟩, ⟨1, "a"⟩] :=
  sorted_out_independent_of_order [⟨1, "a"⟩, ⟨2, "b"⟩] [⟨2, "b"⟩, ⟨1, "a"⟩]
    (List.Perm.swap _ _ _) (by decide)

/-! ## Claim C8 -/

theorem getAttribute_nil (n : String) : getAttribute [] n = none := rfl

/-- C8 counterexample: an indent attribute parsing to a negative integer
makes the paragraph formatter raise (`"&#9;".repeat(-1)` throws
`RangeError`), contradicting "formatting returns a string and never
raises a failure". -/
theorem format_raises_cex : formatLine ⟨some [("lvl", "-1")], []⟩ = none := by decide

/-- C8 (amended): the run formatter is total, and the paragraph formatter
returns a string except exactly when the indent attribute parses to a
negative integer (where it raises); malformed or missing formatting
attributes degrade to "not set" and a non-numeric indent level to "no
prefix". -/
theorem format_total_except_neg_indent :
    (∀ (p : Paragraph),
        (formatLine p).isSome = true ↔
          ¬ ∃ attrs n, p.pPr = some attrs
              ∧ jsParseInt (getAttribute attrs "lvl") = some n ∧ n < 0)
    ∧ (∀ (attrs : List (String × String)) (runs : List Run),
        jsParseInt (getAttribute attrs "lvl") = none →
        formatLine ⟨some attrs, runs⟩ = formatLine ⟨none, runs⟩)
    ∧ (∀ (s : String) (t : Option String), jsParseInt (some s) = none →
        formatSpan ⟨some [("b", s), ("i", s)], t⟩ = jsStr t) := by
  refine ⟨fun p => ?_, fun attrs runs h => ?_, fun s t h => ?_⟩
  · obtain ⟨pPr, runs⟩ := p
    cases pPr with
    | none => simp [formatLine]
    | some attrs =>
      cases hparse : jsParseInt (getAttribute attrs "lvl") with
      | none => simp [formatLine, hparse]
      | some n =>
        by_cases hneg : n < 0
        · have hz : ¬ n = 0 := by omega
          have hfl : formatLine ⟨some attrs, runs⟩ = none := by
            simp [formatLine, hparse, hz, jsRepeat, hneg]
          rw [hfl]
          exact iff_of_false (by simp) (not_not_intro ⟨attrs, n, rfl, hparse, hneg⟩)
        · have hfl : ∃ s, formatLine ⟨some attrs, runs⟩ = some s := by
            by_cases hz : n = 0
            · subst hz
              simp [formatLine, hparse]
            · simp [formatLine, hparse, hz, jsRepeat, hneg]
          obtain ⟨s, hs⟩ := hfl
          rw [hs]
          refine iff_of_true rfl ?_
          rintro ⟨attrs', m, ha, hm, hm'⟩
          injection ha with ha
          subst ha
          rw [hparse] at hm
          injection hm with hm
          omega
  · simp [formatLine, h]
  · have hb : getAttribute [("b", s), ("i", s)] "b" = some s := by
      simp [getAttribute_cons]
    have hi2 : getAttribute [("b", s), ("i", s)] "i" = some s := by
      simp [getAttribute_cons]
    have hu : getAttribute [("b", s), ("i", s)] "u" = none := by
      simp [getAttribute_cons, getAttribute_nil]
    have hst : getAttribute [("b", s), ("i", s)] "strike" = none := by
      simp [getAttribute_cons, getAttribute_nil]
    simp [formatSpan, spanTags, boldSet, italSet, undSet, strikeSet,
      hb, hi2, hu, hst, h, jsTruthyNum]

/-- Witness for C8 (amended): the degradation clauses of the theorem at a
concrete malformed attribute value. -/
theorem format_total_except_neg_indent_witness :
    formatLine ⟨some [("lvl", "zz")], []⟩ = formatLine ⟨none, []⟩
    ∧ formatSpan ⟨some [("b", "zz"), ("i", "zz")], some "hi"⟩ = jsStr (some "hi") :=
  ⟨format_total_except_neg_indent.2.1 [("lvl", "zz")] [] (by decide),
   format_total_except_neg_indent.2.2 "zz" (some "hi") (by decide)⟩

/-! ## Claim C9 -/

/-- C9: a run whose text element is structurally absent formats to the
formatting prefix and suffix wrapping the literal string `"undefined"`
(the JS string coercion of an undefined payload), never to the empty
string between the tags. -/
theorem absent_text_undefined :
    ∀ (r : Run), r.text = none →
      formatSpan r = (spanTags r.rPr).1 ++ "undefined" ++ (spanTags r.rPr).2
      ∧ formatSpan r ≠ (spanTags r.rPr).1 ++ (spanTags r.rPr).2 := by
  intro r h
  have h9 : ("undefined" : String).length = 9 := rfl
  constructor
  · simp [formatSpan, h, jsStr]
  · intro heq
    have hlen := congrArg String.length heq
    simp only [formatSpan, h, jsStr, String.length_append, h9] at hlen
    omega

/-- Witness for C9: the theorem at a bare run with no formatting element
and no text element. -/
theorem absent_text_undefined_witness :
    formatSpan ⟨none, none⟩ =
      (spanTags (Run.mk none none).rPr).1 ++ "undefined" ++ (spanTags (Run.mk none none).rPr).2
    ∧ formatSpan ⟨none, none⟩ ≠
        (spanTags (Run.mk none none).rPr).1 ++ (spanTags (Run.mk none none).rPr).2 :=
  absent_text_undefined ⟨none, none⟩ rfl

/-! ## Claim C10 -/

/-- C10: entry qualification (`/notesSlide[0-9]+/i`, case-insensitive,
anywhere) and index extraction (`/notesSlide(\d+)\.xml$/`, case-sensitive,
end-anchored) use different patterns, so an entry that qualifies but fails
the stricter pattern — such as `NotesSlide7.xml` or `notesSlide1.xml.rels`
— produces, when it has a notes body, a record with slide `-1` instead of
its embedded number. -/
theorem loose_test_strict_extract :
    qualifies "NotesSlide7.xml" = true
    ∧ extractIdx "NotesSlide7.xml" = none
    ∧ qualifies "notesSlide1.xml.rels" = true
    ∧ extractIdx "notesSlide1.xml.rels" = none
    ∧ extractIdx "notesSlide7.xml" = some 7
    ∧ ∀ (name : String) (paras : List Paragraph) (text : String) (es : List Entry),
        qualifies name = true → extractIdx name = none → slideTextOf paras = some text →
        collectNotes ({ name := name, body := some paras } :: es) =
          (collectNotes es).map
            (fun rest => { slide := -1, notes := jsTrim text } :: rest) := by
  refine ⟨by decide, by decide, by decide, by decide, by decide, ?_⟩
  intro name paras text es hq hidx hst
  simp [collectNotes, hq, hst, slideIdxOf, hidx]

/-- Witness for C10: the theorem's universal clause at a concrete entry
that qualifies only case-insensitively. -/
theorem loose_test_strict_extract_witness :
    collectNotes [{ name := "NotesSlide7.xml", body := some [] }] =
      (collectNotes []).map
        (fun rest => { slide := -1, notes := jsTrim "" } :: rest) :=
  loose_test_strict_extract.2.2.2.2.2 "NotesSlide7.xml" [] "" [] (by decide) (by decide) rfl
